import Mathlib

/-!
# Verification of the personal-information record store (src/SQL.py)

Shallow embedding of the data-access layer of the Streamlit/SQLite
personal-information manager.  The single table `personal_info` is modelled
as a list of rows together with the AUTOINCREMENT sequence counter; each
CRUD handler of the source (`add_info`, `edit_info`, `delete_info`, the
overview query and the CSV export) is translated into a pure function on
that state.  Machine effects (the wall clock behind `CURRENT_TIMESTAMP`,
the sqlite connection pool) are made explicit arguments / state.
-/

/-- One row of the `personal_info` table (schema from
`DatabaseManager.init_database`): `id INTEGER PRIMARY KEY AUTOINCREMENT`,
`title TEXT NOT NULL`, the five free-text columns, and
`created_at TEXT DEFAULT CURRENT_TIMESTAMP`. -/
structure Row where
  id : Nat
  title : String
  category : String
  notes : String
  priority : String
  status : String
  tags : String
  created_at : String
deriving Repr, DecidableEq

/-- The database state: the rows of `personal_info` plus the AUTOINCREMENT
sequence (largest id ever assigned; sqlite never reuses it). -/
structure Table where
  rows : List Row
  seq : Nat
deriving Repr, DecidableEq

/-- The empty database produced by `init_database` on a fresh file. -/
def emptyTable : Table := ⟨[], 0⟩

/-- Error taxonomy of the spec: validation failure (empty title) and
not-found failure (absent id). -/
inductive OpError where
  | validationError
  | notFoundError
deriving Repr, DecidableEq

/-- Zero-padding to two digits, as in the `HH:MM:SS` part of sqlite
timestamps. -/
def pad2 (n : Nat) : String :=
  if n < 10 then "0" ++ toString n else toString n

/-- Text form of a wall-clock instant given in whole seconds; models the
`YYYY-MM-DD HH:MM:SS` rendering of sqlite `CURRENT_TIMESTAMP` (the civil
date part is represented by the day count). -/
def timestamp_text (s : Nat) : String :=
  toString (s / 86400) ++ " " ++ pad2 (s % 86400 / 3600) ++ ":" ++
    pad2 (s % 3600 / 60) ++ ":" ++ pad2 (s % 60)

/-- sqlite `CURRENT_TIMESTAMP`: the clock (in milliseconds) truncated to
whole seconds and rendered as text.  This is the `DEFAULT` of the
`created_at` column; it is computed by the store, never by the caller. -/
def current_timestamp (ms : Nat) : String :=
  timestamp_text (ms / 1000)

/-- The row appended by the `INSERT INTO personal_info (title, category,
notes, priority, status, tags) VALUES (?, ?, ?, ?, ?, ?)` statement of
`add_info`: the six bound fields, the next AUTOINCREMENT id, and the
`created_at` default. -/
def freshRow (db : Table) (ms : Nat)
    (title category notes priority status tags : String) : Row :=
  { id := db.seq + 1, title := title, category := category, notes := notes,
    priority := priority, status := status, tags := tags,
    created_at := current_timestamp ms }

/-- The submit branch of `add_info` (src/SQL.py lines 144-155): an empty
title aborts with a validation error (`st.error`) and no statement runs;
otherwise the parameterized INSERT appends one row whose id is the next
AUTOINCREMENT value, which `execute_update` returns as `lastrowid`.
First component: outcome; second: the table after the call. -/
def add_info (db : Table) (ms : Nat)
    (title category notes priority status tags : String) :
    Except OpError Nat × Table :=
  if title = "" then (.error .validationError, db)
  else
    (.ok (db.seq + 1),
     { rows := db.rows ++ [freshRow db ms title category notes priority status tags],
       seq := db.seq + 1 })

/-- The submit branch of `edit_info` (src/SQL.py lines 204-221): an empty
title aborts with a validation error; otherwise the parameterized
`UPDATE personal_info SET title = ?, ... , tags = ? WHERE id = ?` rewrites
the six mutable columns of every row whose id matches (at most one, by the
primary key) and the handler reports success unconditionally — the code
never inspects the affected-row count, so an absent id silently updates
zero rows. -/
def edit_info (db : Table) (record_id : Nat)
    (title category notes priority status tags : String) :
    Except OpError Unit × Table :=
  if title = "" then (.error .validationError, db)
  else
    (.ok (),
     { db with rows := db.rows.map fun r =>
        if r.id = record_id then
          { r with title := title, category := category, notes := notes,
                   priority := priority, status := status, tags := tags }
        else r })

/-- The single-record branch of `delete_info` (src/SQL.py lines 248-257):
first a parameterized `SELECT * FROM personal_info WHERE id = ?` checks
existence; an empty result aborts with a not-found error, otherwise
`DELETE FROM personal_info WHERE id = ?` removes the matching rows. -/
def delete_info (db : Table) (record_id : Nat) :
    Except OpError Unit × Table :=
  if (db.rows.filter fun r => r.id = record_id).isEmpty then
    (.error .notFoundError, db)
  else
    (.ok (), { db with rows := db.rows.filter fun r => ¬ r.id = record_id })

/-- The delete-all branch of `delete_info`: unconditional
`DELETE FROM personal_info`. -/
def delete_all (db : Table) : Table := { db with rows := [] }

/-- The ordering used by the overview / edit / delete queries:
`ORDER BY created_at DESC` compares the stored text with sqlite's binary
collation, i.e. later (lexicographically larger) timestamps first. -/
def created_at_desc (a b : Row) : Prop := b.created_at ≤ a.created_at

instance : DecidableRel created_at_desc := fun a b =>
  inferInstanceAs (Decidable (b.created_at ≤ a.created_at))

instance : IsTotal Row created_at_desc :=
  ⟨fun a b => le_total b.created_at a.created_at⟩

instance : IsTrans Row created_at_desc :=
  ⟨fun _ _ _ h1 h2 => le_trans h2 h1⟩

/-- The query of `show_data_overview` (src/SQL.py line 104):
`SELECT * FROM personal_info ORDER BY created_at DESC` — all rows, sorted
by `created_at` descending (a sorted permutation of the table; ties are
returned in some order the engine does not fix). -/
def show_data_overview (db : Table) : List Row :=
  List.insertionSort created_at_desc db.rows

/-- The contract the `ORDER BY created_at DESC` result satisfies: it is a
permutation of the table sorted non-strictly by `created_at` descending.
Any list satisfying it is a possible result; the engine does not fix the
order of rows with equal timestamps. -/
def orderByResult (db : Table) (out : List Row) : Prop :=
  out.Perm db.rows ∧ out.Sorted created_at_desc

/-- The parameterized lookup `SELECT * FROM personal_info WHERE id = ?`
used by `delete_info`'s existence check and, via the overview dataframe
(`df[df["id"] == record_id]`), by `edit_info`'s form pre-population. -/
def lookupById (db : Table) (record_id : Nat) : List Row :=
  db.rows.filter fun r => r.id = record_id

/-- Primary-key / AUTOINCREMENT invariant: every stored id is at most the
sequence counter.  It holds in `emptyTable` and is preserved by every
operation; it is what makes each fresh id previously unused. -/
def SeqInv (db : Table) : Prop := ∀ r ∈ db.rows, r.id ≤ db.seq

instance (db : Table) : Decidable (SeqInv db) :=
  inferInstanceAs (Decidable (∀ r ∈ db.rows, r.id ≤ db.seq))

/-- A SQL statement exactly as the code hands it to the driver: the SQL
text containing `?` placeholders, plus the separately bound parameter
list (`execute_update(query, params)`).  User input only ever enters the
`params` component. -/
structure SqlStmt where
  sql : String
  params : List String
deriving Repr, DecidableEq

/-- The literal INSERT text of `add_info` (src/SQL.py lines 149-152). -/
def insert_sql : String :=
  "INSERT INTO personal_info (title, category, notes, priority, status, tags) VALUES (?, ?, ?, ?, ?, ?)"

/-- The statement `add_info` submits: constant SQL text, user data bound
as parameters. -/
def add_info_stmt (title category notes priority status tags : String) : SqlStmt :=
  ⟨insert_sql, [title, category, notes, priority, status, tags]⟩

/-- The literal UPDATE text of `edit_info` (src/SQL.py lines 209-218). -/
def update_sql : String :=
  "UPDATE personal_info SET title = ?, category = ?, notes = ?, priority = ?, status = ?, tags = ? WHERE id = ?"

/-- The statement `edit_info` submits. -/
def edit_info_stmt (title category notes priority status tags : String)
    (record_id : Nat) : SqlStmt :=
  ⟨update_sql, [title, category, notes, priority, status, tags, toString record_id]⟩

/-- The literal DELETE text of `delete_info` (src/SQL.py line 255). -/
def delete_sql : String := "DELETE FROM personal_info WHERE id = ?"

/-- The statement `delete_info` submits. -/
def delete_info_stmt (record_id : Nat) : SqlStmt :=
  ⟨delete_sql, [toString record_id]⟩

/-- Connection-count model of `DatabaseManager.execute_query`
(src/SQL.py lines 57-62): `get_connection` opens a fresh connection; on a
successful execution the code reaches `conn.close()`; the body has no
try/finally or context manager, so if the underlying execution raises, the
exception propagates before the close line runs.  `fails` abstracts
whether the engine raises (StorageError).  Result: outcome paired with the
number of connections still open after the call. -/
def execute_query (fails : Bool) (openConns : Nat) : Except Unit Unit × Nat :=
  let afterOpen := openConns + 1
  if fails then (.error (), afterOpen)
  else (.ok (), afterOpen - 1)

/-- Connection-count model of `DatabaseManager.execute_update`
(src/SQL.py lines 64-72), same shape as `execute_query`: open, execute,
commit, close — with no exception handler around the execute. -/
def execute_update (fails : Bool) (openConns : Nat) : Except Unit Unit × Nat :=
  let afterOpen := openConns + 1
  if fails then (.error (), afterOpen)
  else (.ok (), afterOpen - 1)

/-- The category options of the add/edit forms (src/SQL.py line 134). -/
def categories : List String := ["荣誉", "教育经历", "竞赛", "证书", "账号", "其他"]

/-- The priority options (src/SQL.py line 135). -/
def priorities : List String := ["高", "中", "低"]

/-- The status options (src/SQL.py line 137). -/
def statuses : List String := ["进行中", "已完成", "待开始"]

/-- Python `list.index(x)`: position of the first occurrence, raising
`ValueError` when absent — modelled as `Option Nat` with `none` for the
raise. -/
def list_index (l : List String) (x : String) : Option Nat :=
  match l with
  | [] => none
  | y :: ys => if y = x then some 0 else (list_index ys x).map (· + 1)

/-- The pre-population of the edit form (src/SQL.py lines 185-192): the
stored category / priority / status are looked up with `list.index` in the
fixed option lists to compute the preselected indices.  `none` means the
handler crashes with `ValueError` before rendering the form. -/
def edit_form_prefill (r : Row) : Option (Nat × Nat × Nat) := do
  let ci ← list_index categories r.category
  let pri ← list_index priorities r.priority
  let si ← list_index statuses r.status
  pure (ci, pri, si)

/-- One insert request: clock instant (ms) and the six form fields. -/
structure InsertReq where
  ms : Nat
  title : String
  category : String
  notes : String
  priority : String
  status : String
  tags : String
deriving Repr, DecidableEq

/-- Fold a list of insert requests through `add_info`. -/
def runInserts (db : Table) : List InsertReq → Table
  | [] => db
  | q :: rest =>
      runInserts (add_info db q.ms q.title q.category q.notes q.priority q.status q.tags).2 rest

/-- A character forcing csv quoting under the default QUOTE_MINIMAL rule of
`df.to_csv`: the delimiter, the quote char, or a line-terminator char. -/
def csv_special (c : Char) : Bool :=
  c = ',' || c = '"' || c = '\n' || c = '\r'

/-- Quote-doubling inside a quoted csv field. -/
def esc_chars : List Char → List Char
  | [] => []
  | c :: cs => if c = '"' then '"' :: '"' :: esc_chars cs else c :: esc_chars cs

/-- Render one csv field: quoted (with doubled quotes) iff it contains a
special character, verbatim otherwise. -/
def render_field (f : List Char) : List Char :=
  if f.any csv_special then '"' :: (esc_chars f ++ ['"']) else f

/-- Join pieces with a single separator character between them. -/
def join_sep (sep : Char) : List (List Char) → List Char
  | [] => []
  | [x] => x
  | x :: y :: rest => x ++ sep :: join_sep sep (y :: rest)

/-- Render one csv record: comma-joined rendered fields. -/
def render_row (fs : List (List Char)) : List Char :=
  join_sep ',' (fs.map render_field)

/-- Render a csv document: newline-joined records (the trailing newline
that `to_csv` appends is ignored by the reader and omitted here). -/
def render_csv (rows : List (List (List Char))) : List Char :=
  join_sep '\n' (rows.map render_row)

/-- Parse the body of a quoted csv field (the opening quote already
consumed): a doubled quote is a literal quote, a single quote closes the
field.  Returns the field content and the unconsumed remainder. -/
def parse_quoted : List Char → List Char × List Char
  | [] => ([], [])
  | c :: rest =>
    if c = '"' then
      match rest with
      | [] => ([], [])
      | c2 :: rest2 =>
        if c2 = '"' then
          ('"' :: (parse_quoted rest2).1, (parse_quoted rest2).2)
        else ([], rest)
    else (c :: (parse_quoted rest).1, (parse_quoted rest).2)

/-- Parse an unquoted csv field: everything up to the next delimiter or
record terminator. -/
def parse_unquoted : List Char → List Char × List Char
  | [] => ([], [])
  | c :: rest =>
    if c = ',' ∨ c = '\n' then ([], c :: rest)
    else (c :: (parse_unquoted rest).1, (parse_unquoted rest).2)

/-- Parse one csv field, dispatching on an opening quote. -/
def parse_field (l : List Char) : List Char × List Char :=
  match l with
  | [] => ([], [])
  | c :: rest => if c = '"' then parse_quoted rest else parse_unquoted (c :: rest)

/-- Parse the fields of one csv record, with a recursion budget (any
budget larger than the input length is enough; the wrapper below supplies
it).  Stops after the record terminator (consumed) or at end of input. -/
def parse_fields_fuel : Nat → List Char → List (List Char) × List Char
  | 0, l => ([], l)
  | fuel + 1, l =>
    match parse_field l with
    | (f, c :: r2) =>
      if c = ',' then
        (f :: (parse_fields_fuel fuel r2).1, (parse_fields_fuel fuel r2).2)
      else if c = '\n' then ([f], r2)
      else ([f], [])
    | (f, []) => ([f], [])

/-- Parse the fields of one csv record. -/
def parse_fields (l : List Char) : List (List Char) × List Char :=
  parse_fields_fuel (l.length + 1) l

/-- Parse a csv document into its records, with a recursion budget. -/
def parse_rows_fuel : Nat → List Char → List (List (List Char))
  | 0, _ => []
  | fuel + 1, l =>
    match l with
    | [] => []
    | c :: rest =>
      (parse_fields (c :: rest)).1 :: parse_rows_fuel fuel (parse_fields (c :: rest)).2

/-- Parse a csv document into its records. -/
def parse_rows (l : List Char) : List (List (List Char)) :=
  parse_rows_fuel (l.length + 1) l

/-- The csv header row written by `df.to_csv(index=False)`: the column
names of `personal_info` in schema order. -/
def csv_header : List (List Char) :=
  ["id".data, "title".data, "category".data, "notes".data, "priority".data,
   "status".data, "tags".data, "created_at".data]

/-- One table row rendered as its eight csv fields, in column order. -/
def row_to_fields (r : Row) : List (List Char) :=
  [(toString r.id).data, r.title.data, r.category.data, r.notes.data,
   r.priority.data, r.status.data, r.tags.data, r.created_at.data]

/-- The download payload of `add_download_section` (src/SQL.py lines
276-285): the full `SELECT * FROM personal_info` result rendered as csv
text with a header row. -/
def export_csv (db : Table) : List Char :=
  render_csv (csv_header :: db.rows.map row_to_fields)

/-- Re-reading an exported csv document: parse the records and drop the
header row. -/
def reimport (csv : List Char) : List (List (List Char)) :=
  (parse_rows csv).drop 1

/-- The (title, category, notes, priority, status, tags) projection of a
parsed csv record: columns 1-6 of the eight. -/
def fields_tuple (fs : List (List Char)) : List (List Char) :=
  (fs.drop 1).take 6

/-- The (title, category, notes, priority, status, tags) projection of a
stored row. -/
def row_tuple (r : Row) : List (List Char) :=
  [r.title.data, r.category.data, r.notes.data, r.priority.data,
   r.status.data, r.tags.data]

/-! ## Helper lemmas -/

theorem add_info_ok (db : Table) (ms : Nat)
    (title category notes priority status tags : String) (ht : title ≠ "") :
    add_info db ms title category notes priority status tags =
      (.ok (db.seq + 1),
       { rows := db.rows ++ [freshRow db ms title category notes priority status tags],
         seq := db.seq + 1 }) := by
  simp [add_info, ht]

theorem edit_info_ok (db : Table) (record_id : Nat)
    (title category notes priority status tags : String) (ht : title ≠ "") :
    edit_info db record_id title category notes priority status tags =
      (.ok (),
       { db with rows := db.rows.map fun r =>
          if r.id = record_id then
            { r with title := title, category := category, notes := notes,
                     priority := priority, status := status, tags := tags }
          else r }) := by
  simp [edit_info, ht]

theorem map_id_of_no_match {rows : List Row} {record_id : Nat}
    (f : Row → Row) (habs : ∀ r ∈ rows, r.id ≠ record_id) :
    (rows.map fun r => if r.id = record_id then f r else r) = rows := by
  induction rows with
  | nil => rfl
  | cons x xs ih =>
    have hx : x.id ≠ record_id := habs x (List.mem_cons_self x xs)
    simp only [List.map_cons, if_neg hx]
    rw [ih fun r hr => habs r (List.mem_cons_of_mem x hr)]

theorem filter_eq_nil_of_no_match {rows : List Row} {record_id : Nat}
    (habs : ∀ r ∈ rows, r.id ≠ record_id) :
    (rows.filter fun r => r.id = record_id) = [] := by
  induction rows with
  | nil => rfl
  | cons x xs ih =>
    have hx : x.id ≠ record_id := habs x (List.mem_cons_self x xs)
    simp only [List.filter_cons, decide_eq_true_eq, if_neg hx]
    exact ih fun r hr => habs r (List.mem_cons_of_mem x hr)

/-! ## C1 -/

/-- C1: an insert request with an empty title fails with a validation
error and leaves the table (row list and count) unchanged; with a
non-empty title it succeeds and appends exactly one row. -/
theorem insert_empty_title_rejected (db : Table) (ms : Nat)
    (title category notes priority status tags : String) :
    ((add_info db ms "" category notes priority status tags).1 =
        .error .validationError ∧
      (add_info db ms "" category notes priority status tags).2 = db ∧
      (add_info db ms "" category notes priority status tags).2.rows.length =
        db.rows.length) ∧
    (title ≠ "" →
      (add_info db ms title category notes priority status tags).1 =
        .ok (db.seq + 1) ∧
      (add_info db ms title category notes priority status tags).2.rows =
        db.rows ++ [freshRow db ms title category notes priority status tags] ∧
      (add_info db ms title category notes priority status tags).2.rows.length =
        db.rows.length + 1) := by
  refine ⟨⟨?_, ?_, ?_⟩, fun ht => ?_⟩
  · simp [add_info]
  · simp [add_info]
  · simp [add_info]
  · rw [add_info_ok db ms title category notes priority status tags ht]
    simp

/-- C1 witness: instantiation at a concrete table and request. -/
theorem insert_empty_title_rejected_witness :
    ("证书" : String) ≠ "" ∧
    ((add_info emptyTable 5000 "" "荣誉" "n" "高" "进行中" "t").1 =
        .error .validationError ∧
      (add_info emptyTable 5000 "" "荣誉" "n" "高" "进行中" "t").2 = emptyTable ∧
      (add_info emptyTable 5000 "" "荣誉" "n" "高" "进行中" "t").2.rows.length =
        emptyTable.rows.length) ∧
    ((add_info emptyTable 5000 "证书" "荣誉" "n" "高" "进行中" "t").1 =
        .ok (emptyTable.seq + 1) ∧
      (add_info emptyTable 5000 "证书" "荣誉" "n" "高" "进行中" "t").2.rows =
        emptyTable.rows ++ [freshRow emptyTable 5000 "证书" "荣誉" "n" "高" "进行中" "t"] ∧
      (add_info emptyTable 5000 "证书" "荣誉" "n" "高" "进行中" "t").2.rows.length =
        emptyTable.rows.length + 1) := by
  have hne : ("证书" : String) ≠ "" := by decide
  have h := insert_empty_title_rejected emptyTable 5000 "证书" "荣誉" "n" "高" "进行中" "t"
  exact ⟨hne, h.1, h.2 hne⟩

/-! ## C2 -/

/-- A concrete one-row table used to exhibit the behaviour of `edit_info`
on an id that is not present. -/
def c2_table : Table :=
  { rows := [{ id := 1, title := "a", category := "荣誉", notes := "",
               priority := "高", status := "进行中", tags := "",
               created_at := "0 00:00:05" }],
    seq := 1 }

/-- C2 counterexample: id 2 is absent from `c2_table`, yet the update
submit path reports success (`st.success` runs unconditionally) instead of
failing with a NotFoundError — the code never inspects the zero-row
effect. -/
theorem update_absent_id_reports_success :
    (∀ r ∈ c2_table.rows, r.id ≠ 2) ∧
    (edit_info c2_table 2 "x" "荣誉" "" "高" "进行中" "").1 = .ok () ∧
    (edit_info c2_table 2 "x" "荣誉" "" "高" "进行中" "").1 ≠
      .error .notFoundError := by
  refine ⟨by decide, rfl, fun h => ?_⟩
  simp [edit_info, c2_table] at h

/-- C2 (amended): on an id not present in the table, `delete` fails with a
NotFoundError (checked beforehand) and leaves the table unchanged, and
`update` (with a non-empty title) also leaves the table unchanged — a
zero-row effect — but reports success rather than a NotFoundError. -/
theorem absent_id_update_delete (db : Table) (rid : Nat)
    (title category notes priority status tags : String) (ht : title ≠ "")
    (habs : ∀ r ∈ db.rows, r.id ≠ rid) :
    (delete_info db rid).1 = .error .notFoundError ∧
    (delete_info db rid).2 = db ∧
    (edit_info db rid title category notes priority status tags).1 = .ok () ∧
    (edit_info db rid title category notes priority status tags).2 = db := by
  have hfil : (db.rows.filter fun r => r.id = rid) = [] :=
    filter_eq_nil_of_no_match habs
  refine ⟨?_, ?_, ?_, ?_⟩
  · simp [delete_info, hfil]
  · simp [delete_info, hfil]
  · simp [edit_info, ht]
  · rw [edit_info_ok db rid title category notes priority status tags ht]
    show ({ db with rows := _ } : Table) = db
    rw [map_id_of_no_match _ habs]

/-- C2 witness: instantiation at a concrete table and absent id. -/
theorem absent_id_update_delete_witness :
    (("x" : String) ≠ "" ∧ ∀ r ∈ c2_table.rows, r.id ≠ 3) ∧
    ((delete_info c2_table 3).1 = .error .notFoundError ∧
      (delete_info c2_table 3).2 = c2_table ∧
      (edit_info c2_table 3 "x" "荣誉" "" "高" "进行中" "").1 = .ok () ∧
      (edit_info c2_table 3 "x" "荣誉" "" "高" "进行中" "").2 = c2_table) :=
  ⟨⟨by decide, by decide⟩,
    absent_id_update_delete c2_table 3 "x" "荣誉" "" "高" "进行中" ""
      (by decide) (by decide)⟩

/-! ## C3 -/

theorem filter_eq_single_of_nodup {rows : List Row} {rid : Nat} {r : Row}
    (hnodup : (rows.map Row.id).Nodup) (hmem : r ∈ rows) (hid : r.id = rid) :
    (rows.filter fun x => x.id = rid) = [r] := by
  induction rows with
  | nil => cases hmem
  | cons x xs ih =>
    have hx_notin : x.id ∉ xs.map Row.id := (List.nodup_cons.mp hnodup).1
    rcases List.mem_cons.mp hmem with rfl | hmem2
    · have hxs : ∀ y ∈ xs, y.id ≠ rid := by
        intro y hy hyid
        exact hx_notin (hid ▸ hyid ▸ List.mem_map_of_mem Row.id hy)
      simp only [List.filter_cons, decide_eq_true_eq, if_pos hid]
      rw [filter_eq_nil_of_no_match hxs]
    · have hxid : x.id ≠ rid := by
        intro hxid
        exact hx_notin (hxid ▸ hid ▸ List.mem_map_of_mem Row.id hmem2)
      simp only [List.filter_cons, decide_eq_true_eq, if_neg hxid]
      exact ih (List.nodup_cons.mp hnodup).2 hmem2

theorem filter_id_map_comm (rows : List Row) (rid : Nat) (f : Row → Row)
    (hf : ∀ x, (f x).id = x.id) :
    ((rows.map f).filter fun x => x.id = rid) =
      (rows.filter fun x => x.id = rid).map f := by
  induction rows with
  | nil => rfl
  | cons x xs ih =>
    simp only [List.map_cons, List.filter_cons, hf x]
    by_cases hx : x.id = rid
    · simp [hx, ih]
    · simp [hx, ih]

/-- C3: a successful update of an existing id (non-empty title, ids unique
by the primary key) rewrites exactly the six mutable columns of that row,
preserves the id and created_at of every row, leaves rows with other ids
untouched, and a subsequent lookup of the id returns the new field
values. -/
theorem update_existing_frame (db : Table) (rid : Nat) (r : Row)
    (title category notes priority status tags : String) (ht : title ≠ "")
    (hmem : r ∈ db.rows) (hid : r.id = rid)
    (hnodup : (db.rows.map Row.id).Nodup) :
    (edit_info db rid title category notes priority status tags).1 = .ok () ∧
    (edit_info db rid title category notes priority status tags).2.rows =
      db.rows.map (fun x => if x.id = rid then
        { x with title := title, category := category, notes := notes,
                 priority := priority, status := status, tags := tags }
        else x) ∧
    (edit_info db rid title category notes priority status tags).2.rows.length =
      db.rows.length ∧
    ((edit_info db rid title category notes priority status tags).2.rows.map
        fun x => (x.id, x.created_at)) =
      (db.rows.map fun x => (x.id, x.created_at)) ∧
    (∀ x ∈ db.rows, x.id ≠ rid →
      x ∈ (edit_info db rid title category notes priority status tags).2.rows) ∧
    lookupById (edit_info db rid title category notes priority status tags).2 rid =
      [{ r with title := title, category := category, notes := notes,
                priority := priority, status := status, tags := tags }] := by
  have hf : ∀ x : Row, ((fun y : Row => if y.id = rid then
      { y with title := title, category := category, notes := notes,
               priority := priority, status := status, tags := tags }
      else y) x).id = x.id := by
    intro x
    by_cases hx : x.id = rid <;> simp [hx]
  rw [edit_info_ok db rid title category notes priority status tags ht]
  refine ⟨rfl, rfl, by simp, ?_, ?_, ?_⟩
  · rw [List.map_map]
    refine List.map_congr_left fun x _ => ?_
    by_cases hx : x.id = rid <;> simp [hx]
  · intro x hx hxid
    dsimp only
    refine List.mem_map.mpr ⟨x, hx, ?_⟩
    simp [hxid]
  · simp only [lookupById]
    rw [filter_id_map_comm db.rows rid _ hf,
      filter_eq_single_of_nodup hnodup hmem hid]
    simp [hid]

/-- The first row of the witness table for C3. -/
def c3_row1 : Row :=
  { id := 1, title := "a", category := "荣誉", notes := "", priority := "高",
    status := "进行中", tags := "", created_at := "0 00:00:05" }

/-- The second row of the witness table for C3. -/
def c3_row2 : Row :=
  { id := 2, title := "b", category := "证书", notes := "", priority := "低",
    status := "已完成", tags := "", created_at := "0 00:00:06" }

/-- The witness table for C3. -/
def c3_table : Table := { rows := [c3_row1, c3_row2], seq := 2 }

/-- C3 witness: updating the row with id 1 of a two-row table. -/
theorem update_existing_frame_witness :
    (("新标题" : String) ≠ "" ∧ c3_row1 ∈ c3_table.rows ∧ c3_row1.id = 1 ∧
      (c3_table.rows.map Row.id).Nodup) ∧
    lookupById (edit_info c3_table 1 "新标题" "教育经历" "备注" "中" "已完成" "标签").2 1 =
      [{ c3_row1 with title := "新标题", category := "教育经历", notes := "备注",
                      priority := "中", status := "已完成", tags := "标签" }] := by
  refine ⟨⟨by decide, by decide, by decide, by decide⟩, ?_⟩
  exact (update_existing_frame c3_table 1 c3_row1 "新标题" "教育经历" "备注" "中"
    "已完成" "标签" (by decide) (by decide) (by decide) (by decide)).2.2.2.2.2

/-! ## C4 -/

theorem runInserts_length (reqs : List InsertReq) :
    ∀ db : Table, (∀ q ∈ reqs, q.title ≠ "") →
      (runInserts db reqs).rows.length = db.rows.length + reqs.length := by
  induction reqs with
  | nil => intro db _; simp [runInserts]
  | cons q rest ih =>
    intro db hne
    have hq : q.title ≠ "" := hne q (List.mem_cons_self q rest)
    simp only [runInserts]
    rw [ih _ fun x hx => hne x (List.mem_cons_of_mem q hx),
      add_info_ok db q.ms q.title q.category q.notes q.priority q.status q.tags hq]
    simp only [List.length_cons, List.length_append, List.length_nil]
    omega

/-- C4: the overview query returns a permutation of the whole table sorted
by `created_at` descending; its length equals the table's row count; on an
empty table it returns the empty sequence (not an error); and after N
successful inserts into a fresh table (and no deletes) it returns exactly
N records. -/
theorem list_query_ordering (db : Table) (reqs : List InsertReq)
    (hne : ∀ q ∈ reqs, q.title ≠ "") :
    orderByResult db (show_data_overview db) ∧
    (show_data_overview db).length = db.rows.length ∧
    (db.rows = [] → show_data_overview db = []) ∧
    (show_data_overview (runInserts emptyTable reqs)).length = reqs.length := by
  refine ⟨⟨List.perm_insertionSort _ _, List.sorted_insertionSort _ _⟩, ?_, ?_, ?_⟩
  · exact (List.perm_insertionSort _ _).length_eq
  · intro h
    simp [show_data_overview, h]
  · rw [show_data_overview, (List.perm_insertionSort _ _).length_eq,
      runInserts_length reqs emptyTable hne]
    simp [emptyTable]

/-- The insert requests of the C4 witness. -/
def c4_reqs : List InsertReq :=
  [⟨1000, "t1", "荣誉", "", "高", "进行中", ""⟩,
   ⟨2000, "t2", "证书", "", "低", "已完成", ""⟩]

/-- C4 witness: two successful inserts into a fresh table. -/
theorem list_query_ordering_witness :
    (∀ q ∈ c4_reqs, q.title ≠ "") ∧
    (orderByResult c3_table (show_data_overview c3_table) ∧
      (show_data_overview c3_table).length = c3_table.rows.length ∧
      (c3_table.rows = [] → show_data_overview c3_table = []) ∧
      (show_data_overview (runInserts emptyTable c4_reqs)).length =
        c4_reqs.length) :=
  ⟨by decide, list_query_ordering c3_table c4_reqs (by decide)⟩

/-! ## C5 -/

/-- C5: under the primary-key invariant, a successful insert returns
`seq + 1`, an id strictly greater than every stored id (hence previously
unused); a second successful insert returns the strictly larger `seq + 2`;
the invariant is preserved; the appended row's `created_at` is computed by
the store from the clock at insertion; and no later update or delete ever
changes the `(id, created_at)` of a surviving row. -/
theorem insert_ids_increase (db : Table) (ms1 ms2 : Nat)
    (t1 c1 n1 p1 s1 g1 t2 c2 n2 p2 s2 g2 : String)
    (hinv : SeqInv db) (ht1 : t1 ≠ "") (ht2 : t2 ≠ "") :
    (add_info db ms1 t1 c1 n1 p1 s1 g1).1 = .ok (db.seq + 1) ∧
    (∀ r ∈ db.rows, r.id < db.seq + 1) ∧
    SeqInv (add_info db ms1 t1 c1 n1 p1 s1 g1).2 ∧
    (add_info (add_info db ms1 t1 c1 n1 p1 s1 g1).2 ms2 t2 c2 n2 p2 s2 g2).1 =
      .ok (db.seq + 2) ∧
    db.seq + 1 < db.seq + 2 ∧
    (∃ row, (add_info db ms1 t1 c1 n1 p1 s1 g1).2.rows = db.rows ++ [row] ∧
      row.id = db.seq + 1 ∧ row.created_at = current_timestamp ms1) ∧
    (∀ (db2 : Table) (rid : Nat) (t c n p s g : String),
      ((edit_info db2 rid t c n p s g).2.rows.map fun x => (x.id, x.created_at)) =
        (db2.rows.map fun x => (x.id, x.created_at))) ∧
    (∀ (db2 : Table) (rid : Nat), ∀ r ∈ (delete_info db2 rid).2.rows, r ∈ db2.rows) := by
  rw [add_info_ok db ms1 t1 c1 n1 p1 s1 g1 ht1]
  refine ⟨rfl, ?_, ?_, ?_, by omega, ?_, ?_, ?_⟩
  · intro r hr
    exact Nat.lt_succ_of_le (hinv r hr)
  · intro r hr
    rcases List.mem_append.mp hr with hold | hnew
    · exact Nat.le_succ_of_le (hinv r hold)
    · rcases List.mem_singleton.mp hnew with rfl
      exact le_rfl
  · rw [add_info_ok _ ms2 t2 c2 n2 p2 s2 g2 ht2]
  · exact ⟨freshRow db ms1 t1 c1 n1 p1 s1 g1, rfl, rfl, rfl⟩
  · intro db2 rid t c n p s g
    by_cases ht : t = ""
    · simp [edit_info, ht]
    · rw [edit_info_ok db2 rid t c n p s g ht]
      show ((db2.rows.map _).map _) = _
      rw [List.map_map]
      refine List.map_congr_left fun x _ => ?_
      by_cases hx : x.id = rid <;> simp [hx]
  · intro db2 rid r hr
    by_cases hfil : (db2.rows.filter fun x => x.id = rid).isEmpty
    · simpa [delete_info, hfil] using hr
    · simp only [delete_info, if_neg hfil] at hr
      exact List.mem_of_mem_filter hr

/-- C5 witness: two inserts starting from the empty table. -/
theorem insert_ids_increase_witness :
    (SeqInv emptyTable ∧ ("甲" : String) ≠ "" ∧ ("乙" : String) ≠ "") ∧
    ((add_info emptyTable 1000 "甲" "荣誉" "" "高" "进行中" "").1 =
        .ok (emptyTable.seq + 1) ∧
      (add_info (add_info emptyTable 1000 "甲" "荣誉" "" "高" "进行中" "").2
          2000 "乙" "证书" "" "低" "已完成" "").1 = .ok (emptyTable.seq + 2)) := by
  have h := insert_ids_increase emptyTable 1000 2000
    "甲" "荣誉" "" "高" "进行中" "" "乙" "证书" "" "低" "已完成" ""
    (by decide) (by decide) (by decide)
  exact ⟨⟨by decide, by decide, by decide⟩, h.1, h.2.2.2.1⟩

/-! ## C10 -/

/-- C10: `created_at` is stored as text with one-second granularity — two
inserts whose clock instants fall in the same second store equal
`created_at` values — and on equal `created_at` the `ORDER BY created_at
DESC` contract admits both relative orders, so insertion order does not
determine the order in the listing. -/
theorem created_at_second_granularity (db : Table) (ms1 ms2 : Nat)
    (t1 c1 n1 p1 s1 g1 t2 c2 n2 p2 s2 g2 : String)
    (hsec : ms1 / 1000 = ms2 / 1000) (ht1 : t1 ≠ "") (ht2 : t2 ≠ "") :
    (freshRow db ms1 t1 c1 n1 p1 s1 g1).created_at = timestamp_text (ms1 / 1000) ∧
    (freshRow db ms1 t1 c1 n1 p1 s1 g1).created_at =
      (freshRow (add_info db ms1 t1 c1 n1 p1 s1 g1).2 ms2 t2 c2 n2 p2 s2 g2).created_at ∧
    (add_info (add_info db ms1 t1 c1 n1 p1 s1 g1).2 ms2 t2 c2 n2 p2 s2 g2).2.rows =
      db.rows ++ [freshRow db ms1 t1 c1 n1 p1 s1 g1,
        freshRow (add_info db ms1 t1 c1 n1 p1 s1 g1).2 ms2 t2 c2 n2 p2 s2 g2] ∧
    (∀ (a b : Row) (k : Nat), a.created_at = b.created_at →
      orderByResult ⟨[a, b], k⟩ [a, b] ∧ orderByResult ⟨[a, b], k⟩ [b, a]) := by
  refine ⟨rfl, ?_, ?_, ?_⟩
  · show current_timestamp ms1 = current_timestamp ms2
    rw [current_timestamp, current_timestamp, hsec]
  · rw [add_info_ok db ms1 t1 c1 n1 p1 s1 g1 ht1,
      add_info_ok _ ms2 t2 c2 n2 p2 s2 g2 ht2]
    simp
  · intro a b k heq
    have hab : created_at_desc a b := le_of_eq heq.symm
    have hba : created_at_desc b a := le_of_eq heq
    constructor
    · exact ⟨List.Perm.refl _, by simp [List.sorted_cons, hab]⟩
    · exact ⟨List.Perm.swap a b [], by simp [List.sorted_cons, hba]⟩

/-- C10 witness: two inserts at 1200 ms and 1900 ms, both in clock
second 1. -/
theorem created_at_second_granularity_witness :
    ((1200 : Nat) / 1000 = (1900 : Nat) / 1000 ∧ ("甲" : String) ≠ "" ∧
      ("乙" : String) ≠ "") ∧
    (freshRow emptyTable 1200 "甲" "荣誉" "" "高" "进行中" "").created_at =
      (freshRow (add_info emptyTable 1200 "甲" "荣誉" "" "高" "进行中" "").2
        1900 "乙" "证书" "" "低" "已完成" "").created_at := by
  have h := created_at_second_granularity emptyTable 1200 1900
    "甲" "荣誉" "" "高" "进行中" "" "乙" "证书" "" "低" "已完成" ""
    (by decide) (by decide) (by decide)
  exact ⟨⟨by decide, by decide, by decide⟩, h.2.1⟩

/-! ## C7 -/

/-- C7 counterexample: a failing execution (`fails = true`, engine raises)
returns from `execute_query` with one more connection open than at entry —
the exception path never reaches `conn.close()`. -/
theorem failing_query_leaks_connection :
    (execute_query true 0).1 = .error () ∧
    (execute_query true 0).2 = 1 ∧ (execute_query true 0).2 ≠ 0 :=
  ⟨rfl, rfl, by decide⟩

/-- C7 (amended): on the success path both `execute_query` and
`execute_update` open the connection at entry and close it before
returning (net connection count unchanged); but when the underlying
execution fails, the call propagates the failure with the freshly opened
connection still open — release is not guaranteed on the failure path. -/
theorem connection_scoping (n : Nat) :
    ((execute_query false n).1 = .ok () ∧ (execute_query false n).2 = n) ∧
    ((execute_update false n).1 = .ok () ∧ (execute_update false n).2 = n) ∧
    ((execute_query true n).1 = .error () ∧ (execute_query true n).2 = n + 1) ∧
    ((execute_update true n).1 = .error () ∧ (execute_update true n).2 = n + 1) := by
  refine ⟨⟨rfl, ?_⟩, ⟨rfl, ?_⟩, ⟨rfl, rfl⟩, ⟨rfl, rfl⟩⟩ <;>
    simp [execute_query, execute_update]

/-! ## C6 -/

/-- C6: each write operation submits a fixed SQL text — independent of the
user-supplied field values, which travel only in the bound parameter
list — and consequently an insert stores exactly the supplied strings,
whatever SQL metacharacters they contain, as one appended row. -/
theorem writes_use_parameter_binding (db : Table) (ms : Nat)
    (t c n p s g t2 c2 n2 p2 s2 g2 : String) (rid rid2 : Nat) (ht : t ≠ "") :
    (add_info_stmt t c n p s g).sql = (add_info_stmt t2 c2 n2 p2 s2 g2).sql ∧
    (add_info_stmt t c n p s g).params = [t, c, n, p, s, g] ∧
    (edit_info_stmt t c n p s g rid).sql =
      (edit_info_stmt t2 c2 n2 p2 s2 g2 rid2).sql ∧
    (delete_info_stmt rid).sql = (delete_info_stmt rid2).sql ∧
    (add_info db ms t c n p s g).2.rows = db.rows ++
      [{ id := db.seq + 1, title := t, category := c, notes := n, priority := p,
         status := s, tags := g, created_at := current_timestamp ms }] := by
  refine ⟨rfl, rfl, rfl, rfl, ?_⟩
  rw [add_info_ok db ms t c n p s g ht]
  rfl

/-- C6 witness: field values full of SQL metacharacters are stored
verbatim. -/
theorem writes_use_parameter_binding_witness :
    (("a\"; DROP TABLE personal_info;--" : String) ≠ "") ∧
    (add_info emptyTable 1000 "a\"; DROP TABLE personal_info;--"
        "x); DELETE FROM personal_info;--" "" "" "" "").2.rows =
      emptyTable.rows ++
      [{ id := emptyTable.seq + 1, title := "a\"; DROP TABLE personal_info;--",
         category := "x); DELETE FROM personal_info;--", notes := "",
         priority := "", status := "", tags := "",
         created_at := current_timestamp 1000 }] := by
  have h := writes_use_parameter_binding emptyTable 1000
    "a\"; DROP TABLE personal_info;--" "x); DELETE FROM personal_info;--"
    "" "" "" "" "" "" "" "" "" "" 1 2 (by decide)
  exact ⟨by decide, h.2.2.2.2⟩

/-! ## C9: csv round trip -/

/-- The remainder after a rendered field is always empty or starts with a
separator character. -/
def at_sep (l : List Char) : Prop :=
  l = [] ∨ (∃ r, l = ',' :: r) ∨ (∃ r, l = '\n' :: r)

theorem at_sep_head_ne_quote {l : List Char} (h : at_sep l) :
    l.head? ≠ some '"' := by
  rcases h with rfl | ⟨r, rfl⟩ | ⟨r, rfl⟩ <;> simp

theorem parse_quoted_esc : ∀ (f rest : List Char), rest.head? ≠ some '"' →
    parse_quoted (esc_chars f ++ '"' :: rest) = (f, rest)
  | [], rest => by
    intro hrest
    show parse_quoted ('"' :: rest) = ([], rest)
    rw [parse_quoted.eq_def]
    dsimp only
    rw [if_pos rfl]
    cases rest with
    | nil => rfl
    | cons c2 r2 =>
      have hc2 : c2 ≠ '"' := by
        intro h
        exact hrest (by simp [h])
      dsimp only
      rw [if_neg hc2]
  | a :: f2, rest => by
    intro hrest
    by_cases ha : a = '"'
    · subst ha
      show parse_quoted ('"' :: '"' :: (esc_chars f2 ++ '"' :: rest)) = _
      rw [parse_quoted.eq_def]
      dsimp only
      rw [if_pos rfl, if_pos rfl, parse_quoted_esc f2 rest hrest]
    · have hesc : esc_chars (a :: f2) ++ '"' :: rest =
          a :: (esc_chars f2 ++ '"' :: rest) := by
        simp [esc_chars, ha]
      rw [hesc, parse_quoted.eq_def]
      dsimp only
      rw [if_neg ha, parse_quoted_esc f2 rest hrest]

theorem parse_unquoted_clean : ∀ (f rest : List Char),
    (∀ c ∈ f, csv_special c = false) → at_sep rest →
    parse_unquoted (f ++ rest) = (f, rest)
  | [], rest => by
    intro _ hrest
    rcases hrest with rfl | ⟨r, rfl⟩ | ⟨r, rfl⟩
    · rfl
    · show parse_unquoted (',' :: r) = _
      rw [parse_unquoted.eq_def]
      dsimp only
      rw [if_pos (Or.inl rfl)]
    · show parse_unquoted ('\n' :: r) = _
      rw [parse_unquoted.eq_def]
      dsimp only
      rw [if_pos (Or.inr rfl)]
  | c :: f2, rest => by
    intro hclean hrest
    have hc : csv_special c = false := hclean c (List.mem_cons_self c f2)
    have hc2 : ¬ (c = ',' ∨ c = '\n') := by
      intro h
      rcases h with h | h <;> subst h <;> simp [csv_special] at hc
    show parse_unquoted (c :: (f2 ++ rest)) = _
    rw [parse_unquoted.eq_def]
    dsimp only
    rw [if_neg hc2,
      parse_unquoted_clean f2 rest (fun x hx => hclean x (List.mem_cons_of_mem c hx)) hrest]

theorem parse_field_eq_unquoted {l : List Char} (h : l.head? ≠ some '"') :
    parse_field l = parse_unquoted l := by
  cases l with
  | nil => rfl
  | cons c rest =>
    have hc : c ≠ '"' := by
      intro hcq
      exact h (by simp [hcq])
    simp [parse_field, hc]

theorem parse_field_render (f rest : List Char) (hrest : at_sep rest) :
    parse_field (render_field f ++ rest) = (f, rest) := by
  by_cases hq : f.any csv_special
  · have : render_field f ++ rest = '"' :: (esc_chars f ++ '"' :: rest) := by
      simp [render_field, hq]
    rw [this]
    show (if ('"' : Char) = '"' then parse_quoted (esc_chars f ++ '"' :: rest)
      else parse_unquoted ('"' :: (esc_chars f ++ '"' :: rest))) = (f, rest)
    rw [if_pos rfl, parse_quoted_esc f rest (at_sep_head_ne_quote hrest)]
  · have hq2 : f.any csv_special = false := by
      simpa using hq
    have hclean : ∀ c ∈ f, csv_special c = false := by
      intro c hc
      simpa using List.any_eq_false.mp hq2 c hc
    have hrf : render_field f = f := by
      simp [render_field, hq]
    rw [hrf, parse_field_eq_unquoted ?hd, parse_unquoted_clean f rest hclean hrest]
    case hd =>
      cases f with
      | nil => exact at_sep_head_ne_quote hrest
      | cons c f2 =>
        have hc : csv_special c = false := hclean c (List.mem_cons_self c f2)
        have : c ≠ '"' := by
          intro h
          subst h
          simp [csv_special] at hc
        simp [this]

theorem join_sep_len (sep : Char) : ∀ xs : List (List Char),
    xs.length ≤ (join_sep sep xs).length + 1
  | [] => by simp [join_sep]
  | [x] => by simp [join_sep]
  | x :: y :: rest => by
    have ih := join_sep_len sep (y :: rest)
    show (x :: y :: rest).length ≤ (x ++ sep :: join_sep sep (y :: rest)).length + 1
    simp only [List.length_cons, List.length_append] at ih ⊢
    omega

theorem render_row_cons_cons (f g : List Char) (fs : List (List Char)) :
    render_row (f :: g :: fs) = render_field f ++ ',' :: render_row (g :: fs) := rfl

theorem render_row_single (f : List Char) : render_row [f] = render_field f := rfl

theorem parse_fields_fuel_render : ∀ (fs : List (List Char)) (fuel : Nat)
    (rest : List Char), fs ≠ [] → fs.length ≤ fuel →
    (rest = [] ∨ ∃ r, rest = '\n' :: r) →
    parse_fields_fuel fuel (render_row fs ++ rest) = (fs, rest.tail)
  | [], _, _ => by
    intro h _ _
    exact absurd rfl h
  | [f], fuel, rest => by
    intro _ hfuel hrest
    cases fuel with
    | zero => simp at hfuel
    | succ fuel2 =>
      have hat : at_sep rest := by
        rcases hrest with rfl | ⟨r, rfl⟩
        · exact Or.inl rfl
        · exact Or.inr (Or.inr ⟨r, rfl⟩)
      rw [render_row_single]
      simp only [parse_fields_fuel]
      rw [parse_field_render f rest hat]
      rcases hrest with rfl | ⟨r, rfl⟩
      · rfl
      · dsimp only
        rw [if_neg (by decide : ¬ ('\n' : Char) = ','), if_pos rfl]
        rfl
  | f :: g :: fs2, fuel, rest => by
    intro _ hfuel hrest
    cases fuel with
    | zero => simp at hfuel
    | succ fuel2 =>
      have hat : at_sep (',' :: (render_row (g :: fs2) ++ rest)) :=
        Or.inr (Or.inl ⟨_, rfl⟩)
      rw [render_row_cons_cons, List.append_assoc, List.cons_append]
      simp only [parse_fields_fuel]
      rw [parse_field_render f (',' :: (render_row (g :: fs2) ++ rest)) hat]
      dsimp only
      rw [if_pos rfl,
        parse_fields_fuel_render (g :: fs2) fuel2 rest (by simp)
          (by simpa using hfuel) hrest]

theorem render_row_ne_nil {fs : List (List Char)} (h2 : 2 ≤ fs.length) :
    render_row fs ≠ [] := by
  cases fs with
  | nil => simp at h2
  | cons f t =>
    cases t with
    | nil => simp at h2
    | cons g fs2 =>
      rw [render_row_cons_cons]
      simp

theorem parse_rows_fuel_nil (fuel : Nat) : parse_rows_fuel fuel [] = [] := by
  cases fuel <;> rfl

theorem parse_rows_fuel_cons (fuel : Nat) (l : List Char) (hl : l ≠ []) :
    parse_rows_fuel (fuel + 1) l =
      (parse_fields l).1 :: parse_rows_fuel fuel (parse_fields l).2 := by
  obtain ⟨c, r, rfl⟩ := List.exists_cons_of_ne_nil hl
  rfl

theorem parse_fields_render (fs : List (List Char)) (rest : List Char)
    (hne : fs ≠ []) (hrest : rest = [] ∨ ∃ r, rest = '\n' :: r) :
    parse_fields (render_row fs ++ rest) = (fs, rest.tail) := by
  apply parse_fields_fuel_render fs _ rest hne ?_ hrest
  have h1 := join_sep_len ',' (fs.map render_field)
  simp only [render_row, List.length_append, List.length_map] at h1 ⊢
  omega

theorem parse_rows_fuel_render : ∀ (rows : List (List (List Char))) (fuel : Nat),
    (∀ row ∈ rows, 2 ≤ row.length) → rows.length ≤ fuel →
    parse_rows_fuel fuel (render_csv rows) = rows
  | [], fuel => by
    intro _ _
    exact parse_rows_fuel_nil fuel
  | [row], fuel => by
    intro h2 hfuel
    cases fuel with
    | zero => simp at hfuel
    | succ fuel2 =>
      have hrow2 : 2 ≤ row.length := h2 row (List.mem_cons_self _ _)
      have hne_row : row ≠ [] := by
        intro h
        rw [h] at hrow2
        simp at hrow2
      have hpf := parse_fields_render row [] hne_row (Or.inl rfl)
      rw [List.append_nil] at hpf
      have hcsv : render_csv [row] = render_row row := rfl
      rw [hcsv, parse_rows_fuel_cons fuel2 _ (render_row_ne_nil hrow2), hpf]
      simp only [List.tail_nil]
      rw [parse_rows_fuel_nil]
  | row :: row2 :: rows2, fuel => by
    intro h2 hfuel
    cases fuel with
    | zero => simp at hfuel
    | succ fuel2 =>
      have hrow2 : 2 ≤ row.length := h2 row (List.mem_cons_self _ _)
      have hne_row : row ≠ [] := by
        intro h
        rw [h] at hrow2
        simp at hrow2
      have hcsv : render_csv (row :: row2 :: rows2) =
          render_row row ++ '\n' :: render_csv (row2 :: rows2) := rfl
      have hlne : render_row row ++ '\n' :: render_csv (row2 :: rows2) ≠ [] := by
        simp
      have hpf := parse_fields_render row ('\n' :: render_csv (row2 :: rows2))
        hne_row (Or.inr ⟨_, rfl⟩)
      rw [hcsv, parse_rows_fuel_cons fuel2 _ hlne, hpf]
      simp only [List.tail_cons]
      rw [parse_rows_fuel_render (row2 :: rows2) fuel2
        (fun r hr => h2 r (List.mem_cons_of_mem row hr)) (by simpa using hfuel)]

theorem parse_render_csv (rows : List (List (List Char)))
    (h2 : ∀ row ∈ rows, 2 ≤ row.length) :
    parse_rows (render_csv rows) = rows := by
  apply parse_rows_fuel_render rows _ h2
  have h1 := join_sep_len '\n' (rows.map render_row)
  simp only [render_csv, List.length_map] at h1 ⊢
  omega

theorem parse_export_eq (db : Table) :
    parse_rows (export_csv db) = csv_header :: db.rows.map row_to_fields := by
  apply parse_render_csv
  intro row hrow
  rcases List.mem_cons.mp hrow with rfl | hmem
  · simp [csv_header]
  · obtain ⟨r, _, rfl⟩ := List.mem_map.mp hmem
    simp [row_to_fields]

theorem reimport_export_eq (db : Table) :
    (reimport (export_csv db)).map fields_tuple = db.rows.map row_tuple := by
  rw [reimport, parse_export_eq db]
  simp only [List.drop_succ_cons, List.drop_zero, List.map_map]
  exact List.map_congr_left fun r _ => rfl

/-- C9: re-reading the exported csv document yields the header followed by
exactly the table's rows; in particular the projection to the
(title, category, notes, priority, status, tags) tuples of the re-read
records equals that of the table — and therefore the set of such tuples is
preserved (ordering aside, with id and created_at treated as opaque
text). -/
theorem export_csv_round_trip (db : Table) :
    parse_rows (export_csv db) = csv_header :: db.rows.map row_to_fields ∧
    (reimport (export_csv db)).map fields_tuple = db.rows.map row_tuple ∧
    (∀ t, t ∈ (reimport (export_csv db)).map fields_tuple ↔
      t ∈ db.rows.map row_tuple) :=
  ⟨parse_export_eq db, reimport_export_eq db,
    fun t => by rw [reimport_export_eq db]⟩

/-! ## C8 -/

theorem list_index_eq_none {l : List String} {x : String} (h : x ∉ l) :
    list_index l x = none := by
  induction l with
  | nil => rfl
  | cons y ys ih =>
    have hy : ¬ y = x := fun hyx => h (hyx ▸ List.mem_cons_self y ys)
    simp only [list_index, if_neg hy]
    rw [ih fun hx => h (List.mem_cons_of_mem y hx)]
    rfl

/-- C8 counterexample: a record with category `custom` — outside the
enumerated option list — is accepted and persisted by the store, but the
edit-form pre-population fails on it (`list.index` raises `ValueError`,
modelled as `none`): not every read path tolerates such a record. -/
theorem out_of_enum_prefill_fails :
    ("custom" : String) ∉ categories ∧
    (add_info emptyTable 1000 "t" "custom" "" "高" "进行中" "").1 = .ok 1 ∧
    (∀ r ∈ (add_info emptyTable 1000 "t" "custom" "" "高" "进行中" "").2.rows,
      r.category = "custom" ∧ edit_form_prefill r = none) := by
  refine ⟨by decide, rfl, by decide⟩

/-- C8 (amended): the store checks only that the title is non-empty, so a
record whose category / priority / status lie outside the enumerated
option lists is persisted verbatim; the overview listing and the csv
export still include it without failing; but the edit form's
pre-population fails on any record whose category is outside the
enumeration (Python `list.index` raises `ValueError`). -/
theorem store_no_enum_enforcement (db : Table) (ms : Nat)
    (t c n p s g : String) (ht : t ≠ "") :
    (add_info db ms t c n p s g).1 = .ok (db.seq + 1) ∧
    (add_info db ms t c n p s g).2.rows =
      db.rows ++ [freshRow db ms t c n p s g] ∧
    (freshRow db ms t c n p s g).category = c ∧
    (freshRow db ms t c n p s g).priority = p ∧
    (freshRow db ms t c n p s g).status = s ∧
    freshRow db ms t c n p s g ∈
      show_data_overview (add_info db ms t c n p s g).2 ∧
    row_tuple (freshRow db ms t c n p s g) ∈
      (reimport (export_csv (add_info db ms t c n p s g).2)).map fields_tuple ∧
    (c ∉ categories → edit_form_prefill (freshRow db ms t c n p s g) = none) := by
  rw [add_info_ok db ms t c n p s g ht]
  refine ⟨rfl, rfl, rfl, rfl, rfl, ?_, ?_, ?_⟩
  · simp [show_data_overview]
  · rw [reimport_export_eq]
    exact List.mem_map_of_mem row_tuple (by simp)
  · intro hc
    have hidx : list_index categories c = none := list_index_eq_none hc
    simp only [edit_form_prefill, freshRow]
    rw [hidx]
    rfl

/-- C8 witness: a persisted record with category `custom`, outside the
enumeration. -/
theorem store_no_enum_enforcement_witness :
    (("t" : String) ≠ "" ∧ ("custom" : String) ∉ categories) ∧
    ((add_info emptyTable 1000 "t" "custom" "" "高" "进行中" "").1 =
        .ok (emptyTable.seq + 1) ∧
      (freshRow emptyTable 1000 "t" "custom" "" "高" "进行中" "").category =
        "custom" ∧
      edit_form_prefill (freshRow emptyTable 1000 "t" "custom" "" "高" "进行中" "") =
        none) := by
  have h := store_no_enum_enforcement emptyTable 1000 "t" "custom" "" "高"
    "进行中" "" (by decide)
  exact ⟨⟨by decide, by decide⟩, h.1, h.2.2.1, h.2.2.2.2.2.2.2 (by decide)⟩
